import Mathlib

/-!
Shallow embedding of the data-reception and serialization pipeline of
`src/Gocator/ReceiveSurfaceAsync.c`.

Modelling conventions:
- C machine integers are modelled as `Nat`/`Int`; the `k32u` surface counter
  wraps, so its increment is taken modulo `2^32`.
- C doubles (`k64f`) are modelled as `Rat`; their 8-byte on-disk bit pattern
  is not modelled (only its size), since IEEE-754 bit layout is outside the
  scope of the claims.
- Each `fwrite` call of the surface handler becomes one `Chunk` appended to
  the artifact; a failed write contributes nothing, a successful write
  contributes the chunk.  The open/write outcomes of the environment are an
  explicit oracle.
- The `fopen`-failure path of the surface handler executes `return;`, which
  abandons the remaining messages of the batch; the model returns the state
  reached so far.
-/

/-- Little-endian byte list (native byte order of the x86 producing machine)
of a value, truncated to `n` bytes, as raw `fwrite` of an integer emits it. -/
def leBytes (n v : Nat) : List Nat :=
  (List.range n).map fun i => v / 256 ^ i % 256

/-- The two bytes `fwrite` emits for one `k16s` sample: the two's-complement
16-bit pattern of the sample, little-endian. -/
def int16bytes (s : Int) : List Nat :=
  leBytes 2 (s % 65536).toNat

/-- A consumer's decoding of one 16-bit sample from its two bytes. -/
def decodeInt16 (bs : List Nat) : Int :=
  let u : Nat := bs.headD 0 + 256 * (bs.tail.headD 0)
  if u < 32768 then (u : Int) else (u : Int) - 65536

/-- One `fwrite` call of the surface handler: either raw bytes (text tag,
integers, sample rows) or one 8-byte `k64f` whose value is tracked but whose
bit pattern is not modelled. -/
inductive Chunk where
  | raw (bytes : List Nat)
  | f64 (value : Rat)
deriving DecidableEq

/-- Number of bytes a chunk occupies in the artifact (a `k64f` is 8 bytes). -/
def Chunk.size : Chunk → Nat
  | Chunk.raw bs => bs.length
  | Chunk.f64 _ => 8

/-- Total byte length of a list of chunks. -/
def chunksSize (cs : List Chunk) : Nat :=
  (cs.map Chunk.size).sum

/-- `#define NM_TO_MM(VALUE) (((k64f)(VALUE))/1000000.0)` (line 58). -/
def NM_TO_MM (v : Int) : Rat := (v : Rat) / 1000000

/-- `#define UM_TO_MM(VALUE) (((k64f)(VALUE))/1000.0)` (line 59). -/
def UM_TO_MM (v : Int) : Rat := (v : Rat) / 1000

/-- `#define HEADERTEXT "MHSKJELV VER0001"` (line 64). -/
def HEADERTEXT : String := "MHSKJELV VER0001"

/-- The 16 bytes `fwrite(&HEADERTEXT, sizeof(HEADERTEXT)-1, 1, fptr)` emits:
the tag without its null terminator. -/
def headerTextBytes : List Nat := HEADERTEXT.toList.map Char.toNat

/-- One surface message (`GoSurfaceMsg`): grid dimensions, raw per-axis
resolutions (nm) and offsets (µm), and the row-major grid of `k16s` samples,
one list per row as `GoSurfaceMsg_RowAt` returns them. -/
structure GoSurfaceMsg where
  width : Nat
  length : Nat
  xResolutionNm : Int
  yResolutionNm : Int
  zResolutionNm : Int
  xOffsetUm : Int
  yOffsetUm : Int
  zOffsetUm : Int
  rows : List (List Int)
deriving DecidableEq

/-- One message of a dataset, classified as the `switch` on
`GoDataMsg_Type` classifies it: a stamp message carries a list of stamps
(their timestamps), a measurement message carries one id and a list of
measurement-data values, any other kind falls through the `switch`. -/
inductive GoDataMsg where
  | stamp (timestamps : List Nat)
  | surface (msg : GoSurfaceMsg)
  | measurement (id : Nat) (values : List Rat)
  | other
deriving DecidableEq

/-- The `DataContext` struct (lines 68-75): surface counter (`k32u`),
last-seen timestamp (`k64u`), and the session-constant camera settings. -/
structure DataContext where
  count : Nat
  timeStamp : Nat
  frameRate : Rat
  exposureTime : Rat
deriving DecidableEq

/-- Environment outcomes for one artifact: whether its `fopen` succeeds and
which of its `fwrite` calls succeed (indexed in call order: 0..11 are the
header writes, 12+rowIdx the row writes). -/
structure ArtifactOracle where
  openOk : Bool
  writeOk : Nat → Bool

/-- One binary artifact file created by the surface handler, identified by
the counter value embedded in its name. -/
structure BinFile where
  seq : Nat
  chunks : List Chunk

/-- Observable session state: the context plus the files and log lines
written so far. -/
structure SessionState where
  ctx : DataContext
  binFiles : List BinFile
  measLines : List String

/-- `2^32`, the modulus of the `k32u` surface counter. -/
def k32uMod : Nat := 4294967296

/-- The header `fwrite` sequence of the surface handler (lines 291-302), in
source order: tag, timestamp, width, length, then the eight `k64f` fields
x-offset, x-resolution, y-offset, y-resolution, z-offset, z-resolution,
frame rate, exposure time. -/
def headerChunks (ctx : DataContext) (m : GoSurfaceMsg) : List Chunk :=
  [Chunk.raw headerTextBytes,
   Chunk.raw (leBytes 8 ctx.timeStamp),
   Chunk.raw (leBytes 4 m.width),
   Chunk.raw (leBytes 4 m.length),
   Chunk.f64 (UM_TO_MM m.xOffsetUm),
   Chunk.f64 (NM_TO_MM m.xResolutionNm),
   Chunk.f64 (UM_TO_MM m.yOffsetUm),
   Chunk.f64 (NM_TO_MM m.yResolutionNm),
   Chunk.f64 (UM_TO_MM m.zOffsetUm),
   Chunk.f64 (NM_TO_MM m.zResolutionNm),
   Chunk.f64 ctx.frameRate,
   Chunk.f64 ctx.exposureTime]

/-- The row `fwrite` sequence (lines 305-315): one write per row, each
emitting the row's samples as raw 16-bit data, nothing between rows. -/
def rowChunksOf (m : GoSurfaceMsg) : List Chunk :=
  m.rows.map fun r => Chunk.raw (r.map int16bytes).flatten

/-- Keep the chunks whose write call (counted from `i`) succeeds; a failed
`fwrite` contributes no bytes and the handler merely prints a warning and
continues with the next write. -/
def applyOracle (ok : Nat → Bool) : Nat → List Chunk → List Chunk
  | _, [] => []
  | i, c :: cs =>
    if ok i then c :: applyOracle ok (i + 1) cs else applyOracle ok (i + 1) cs

/-- The chunks actually appended to an opened artifact file: the header and
row writes, filtered by which `fwrite` calls succeed. -/
def encodeSurface (ora : ArtifactOracle) (ctx : DataContext) (m : GoSurfaceMsg) :
    List Chunk :=
  applyOracle ora.writeOk 0 (headerChunks ctx m ++ rowChunksOf m)

/-- Decimal rendering of `%4.0u`: precision 0 prints no digit for the value
zero, then the result is right-aligned in a field of width 4. -/
def fmtU4 (n : Nat) : String :=
  let s := if n = 0 then "" else toString n
  String.mk (List.replicate (4 - s.length) ' ') ++ s

/-- The integer `printf %.2f` rounds a value to, in hundredths: nearest,
halves away from zero (the value is already an abstraction of the C double,
and no claim exercises a tie).  For the value `num/den` this is
`⌊(200*num + den) / (2*den)⌋` on the nonnegative side, mirrored on the
negative side; it is computed on the numerator and denominator directly. -/
def round2 (v : Rat) : Int :=
  if 0 ≤ v.num then (200 * v.num + (v.den : Int)) / (2 * (v.den : Int))
  else -((200 * (-v.num) + (v.den : Int)) / (2 * (v.den : Int)))

/-- Decimal rendering of `%.2f`: two digits after the point. -/
def fmtF2 (v : Rat) : String :=
  let m := (round2 v).natAbs
  let frac := m % 100
  let sgn := if v.num < 0 then "-" else ""
  sgn ++ toString (m / 100) ++ "." ++ (if frac < 10 then "0" else "") ++ toString frac

/-- One measurement log line, per
`fprintf(context->measFilePointer, "%4.0u;%4.0u; %.2f\r\n", context->count,
GoMeasurementMsg_Id(measurementMsg), measurementData->value)` (line 331). -/
def measLine (count id : Nat) (value : Rat) : String :=
  fmtU4 count ++ ";" ++ fmtU4 id ++ "; " ++ fmtF2 value ++ "\r\n"

/-- The fixed first line of the measurement log (line 183). -/
def measFileHeader : String := "Surface number; Measurement ID; Measurement value\r\n"

/-- The `onData` callback (lines 226-342): iterate the dataset in order; a
stamp message copies each stamp's timestamp into the context (the last one
wins); a surface message increments the counter, then opens the artifact —
on open failure it prints an error and executes `return;`, abandoning the
remaining messages of the batch — and otherwise performs the header and row
writes and closes the file; a measurement message appends one log line per
measurement datum; any other message kind is ignored. -/
def onData (ora : Nat → ArtifactOracle) : SessionState → List GoDataMsg → SessionState
  | st, [] => st
  | st, GoDataMsg.stamp ts :: rest =>
    onData ora
      { st with ctx := { st.ctx with timeStamp := ts.foldl (fun _ t => t) st.ctx.timeStamp } }
      rest
  | st, GoDataMsg.surface m :: rest =>
    let ctx1 : DataContext := { st.ctx with count := (st.ctx.count + 1) % k32uMod }
    if (ora ctx1.count).openOk then
      onData ora
        { st with ctx := ctx1,
                  binFiles := st.binFiles ++
                    [{ seq := ctx1.count, chunks := encodeSurface (ora ctx1.count) ctx1 m }] }
        rest
    else
      { st with ctx := ctx1 }
  | st, GoDataMsg.measurement mid vs :: rest =>
    onData ora
      { st with measLines := st.measLines ++ vs.map (fun v => measLine st.ctx.count mid v) }
      rest
  | st, GoDataMsg.other :: rest => onData ora st rest

/-- A session: the external sensor session delivers batches one dispatch
call at a time, threading the context through every call. -/
def runSession (ora : Nat → ArtifactOracle) (st : SessionState)
    (batches : List (List GoDataMsg)) : SessionState :=
  batches.foldl (onData ora) st

/-- Session state right after `main`'s setup (lines 146-151): the counter is
reset to 0 and the camera settings captured; `timeStamp` is never
initialized anywhere in `main`, so it holds an indeterminate stack value,
modelled by the parameter `g`. -/
def initState (g : Nat) (fr ex : Rat) : SessionState :=
  { ctx := { count := 0, timeStamp := g, frameRate := fr, exposureTime := ex },
    binFiles := [], measLines := [] }

/-- An environment in which every open and every write succeeds. -/
def allOk : Nat → ArtifactOracle :=
  fun _ => { openOk := true, writeOk := fun _ => true }

/-- An environment in which every artifact `fopen` fails. -/
def openFailAll : Nat → ArtifactOracle :=
  fun _ => { openOk := false, writeOk := fun _ => true }

/-- An environment in which opens and header writes succeed but every row
write is short. -/
def rowWriteFail : Nat → ArtifactOracle :=
  fun _ => { openOk := true, writeOk := fun i => decide (i < 12) }

/-- A concrete 1×1 surface whose only sample is the invalid-data sentinel,
with resolutions of 1000000 nm and offsets of 1000 µm. -/
def demoMsg : GoSurfaceMsg :=
  { width := 1, length := 1,
    xResolutionNm := 1000000, yResolutionNm := 1000000, zResolutionNm := 1000000,
    xOffsetUm := 1000, yOffsetUm := 1000, zOffsetUm := 1000,
    rows := [[-32768]] }

/-- A concrete context snapshot. -/
def demoCtx : DataContext :=
  { count := 1, timeStamp := 0, frameRate := 0, exposureTime := 0 }

/-- A single all-successful artifact environment. -/
def allOkOra : ArtifactOracle := { openOk := true, writeOk := fun _ => true }

/-- Whether a message is a surface message (the kind that increments the
counter). -/
def isSurfaceMsg : GoDataMsg → Bool
  | GoDataMsg.surface _ => true
  | _ => false

/-- Spec-side measure: the timestamp of the last stamp record of a message
list, or the given prior value if the list holds no stamp record. -/
def lastStampD : Nat → List GoDataMsg → Nat
  | c, [] => c
  | c, GoDataMsg.stamp ts :: rest => lastStampD (ts.foldl (fun _ t => t) c) rest
  | c, _ :: rest => lastStampD c rest

/-- Each `leBytes n` write emits exactly `n` bytes. -/
theorem leBytes_length (n v : Nat) : (leBytes n v).length = n := by
  simp [leBytes]

/-- The tag write emits exactly 16 bytes (the null terminator is excluded). -/
theorem headerTextBytes_length : headerTextBytes.length = 16 := by decide

/-- The surface handler performs exactly 12 header writes. -/
theorem headerChunks_length (ctx : DataContext) (m : GoSurfaceMsg) :
    (headerChunks ctx m).length = 12 := by
  simp [headerChunks]

/-- When every write succeeds the oracle filter keeps every chunk. -/
theorem applyOracle_all_true (ok : Nat → Bool) (h : ∀ i, ok i = true) :
    ∀ (i : Nat) (cs : List Chunk), applyOracle ok i cs = cs := by
  intro i cs
  induction cs generalizing i with
  | nil => rfl
  | cons c t ih => simp [applyOracle, h, ih]

theorem chunksSize_cons (c : Chunk) (cs : List Chunk) :
    chunksSize (c :: cs) = Chunk.size c + chunksSize cs := by
  simp [chunksSize]

theorem chunksSize_append (a b : List Chunk) :
    chunksSize (a ++ b) = chunksSize a + chunksSize b := by
  simp [chunksSize]

/-- The 12 header writes total 96 bytes: 16 + 8 + 4 + 4 + 8·8. -/
theorem headerChunks_size (ctx : DataContext) (m : GoSurfaceMsg) :
    chunksSize (headerChunks ctx m) = 96 := by
  simp [chunksSize, headerChunks, Chunk.size, leBytes_length, headerTextBytes_length]

/-- One row write emits two bytes per sample. -/
theorem rowBytes_length (r : List Int) :
    ((r.map int16bytes).flatten).length = 2 * r.length := by
  induction r with
  | nil => rfl
  | cons a t ih =>
    simp [int16bytes, leBytes_length, ih]
    omega

/-- The row writes of a well-formed grid total `2·width` bytes per row. -/
theorem rowChunks_size (w : Nat) :
    ∀ rs : List (List Int), (∀ r ∈ rs, r.length = w) →
      chunksSize (rs.map fun r => Chunk.raw (r.map int16bytes).flatten) = 2 * w * rs.length := by
  intro rs
  induction rs with
  | nil => intro _; simp [chunksSize]
  | cons r t ih =>
    intro h
    have hr : r.length = w := h r (List.mem_cons_self r t)
    have ht : ∀ x ∈ t, x.length = w := fun x hx => h x (List.mem_cons_of_mem r hx)
    rw [List.map_cons, chunksSize_cons, ih ht]
    show ((r.map int16bytes).flatten).length + 2 * w * t.length = 2 * w * (t.length + 1)
    rw [rowBytes_length, hr]
    ring

theorem rowChunksOf_size (m : GoSurfaceMsg) (hrow : ∀ r ∈ m.rows, r.length = m.width) :
    chunksSize (rowChunksOf m) = 2 * m.width * m.rows.length := by
  unfold rowChunksOf
  exact rowChunks_size m.width m.rows hrow

/-- Total size of the full write sequence of one well-formed surface. -/
theorem encode_total_size (ctx : DataContext) (m : GoSurfaceMsg)
    (hrows : m.rows.length = m.length) (hrow : ∀ r ∈ m.rows, r.length = m.width) :
    chunksSize (headerChunks ctx m ++ rowChunksOf m) = 96 + 2 * m.width * m.length := by
  rw [chunksSize_append, headerChunks_size, rowChunksOf_size m hrow, hrows]

/-- C1 (amended): for every surface message with positive width and length
whose artifact is encoded with every write succeeding, the artifact is
exactly `96 + 2*width*length` bytes long: a fixed 96-byte header followed by
the row data. -/
theorem C1_artifact_size (ora : ArtifactOracle) (ctx : DataContext) (m : GoSurfaceMsg)
    (hw : 0 < m.width) (hl : 0 < m.length)
    (hrows : m.rows.length = m.length) (hrow : ∀ r ∈ m.rows, r.length = m.width)
    (hok : ∀ i, ora.writeOk i = true) :
    chunksSize (encodeSurface ora ctx m) = 96 + 2 * m.width * m.length := by
  unfold encodeSurface
  rw [applyOracle_all_true ora.writeOk hok]
  exact encode_total_size ctx m hrows hrow

/-- Witness for C1_artifact_size at the concrete 1×1 demo surface. -/
theorem C1_artifact_size_witness :
    chunksSize (encodeSurface allOkOra demoCtx demoMsg)
      = 96 + 2 * demoMsg.width * demoMsg.length :=
  C1_artifact_size allOkOra demoCtx demoMsg (by decide) (by decide) (by decide)
    (by decide) (fun _ => rfl)

/-- C1 as stated is false: the 1×1 demo artifact, encoded with every write
succeeding, is 98 bytes, not `80 + 2*1*1 = 82` — the fixed header the
handler writes (16-byte tag, 8-byte timestamp, two 4-byte dimensions, eight
8-byte doubles) is 96 bytes, not 80. -/
theorem C1_cex :
    chunksSize (encodeSurface allOkOra demoCtx demoMsg) = 98
    ∧ chunksSize (encodeSurface allOkOra demoCtx demoMsg)
        ≠ 80 + 2 * demoMsg.width * demoMsg.length := by
  exact ⟨rfl, by decide⟩

/-- C7: the per-axis resolutions written to the header are the raw
nanometer values divided by 1000000 and the offsets the raw micrometer
values divided by 1000 (positions 4..9 of the write sequence), and the
conversions map 1000000 nm to 1 mm and 1000 µm to 1 mm. -/
theorem C7_units (ctx : DataContext) (m : GoSurfaceMsg) :
    ((headerChunks ctx m)[5]? = some (Chunk.f64 ((m.xResolutionNm : Rat) / 1000000))
      ∧ (headerChunks ctx m)[7]? = some (Chunk.f64 ((m.yResolutionNm : Rat) / 1000000))
      ∧ (headerChunks ctx m)[9]? = some (Chunk.f64 ((m.zResolutionNm : Rat) / 1000000)))
    ∧ ((headerChunks ctx m)[4]? = some (Chunk.f64 ((m.xOffsetUm : Rat) / 1000))
      ∧ (headerChunks ctx m)[6]? = some (Chunk.f64 ((m.yOffsetUm : Rat) / 1000))
      ∧ (headerChunks ctx m)[8]? = some (Chunk.f64 ((m.zOffsetUm : Rat) / 1000)))
    ∧ NM_TO_MM 1000000 = 1 ∧ UM_TO_MM 1000 = 1 := by
  refine ⟨⟨rfl, rfl, rfl⟩, ⟨rfl, rfl, rfl⟩, ?_, ?_⟩
  · norm_num [NM_TO_MM]
  · norm_num [UM_TO_MM]

/-- C8: when every write succeeds, everything after the 12 header writes is
exactly the rows, in order, each row the raw two-byte encodings of its
samples with nothing between them; and every sample in the signed 16-bit
range — including the sentinel −32768 — decodes back from its two bytes
unchanged. -/
theorem C8_passthrough (ora : ArtifactOracle) (ctx : DataContext) (m : GoSurfaceMsg)
    (hok : ∀ i, ora.writeOk i = true) :
    (encodeSurface ora ctx m).drop 12
        = m.rows.map (fun r => Chunk.raw (r.map int16bytes).flatten)
    ∧ ∀ s : Int, -32768 ≤ s → s ≤ 32767 → decodeInt16 (int16bytes s) = s := by
  constructor
  · unfold encodeSurface
    rw [applyOracle_all_true ora.writeOk hok]
    have h12 : (headerChunks ctx m).length = 12 := headerChunks_length ctx m
    rw [← h12, List.drop_left]
    rfl
  · intro s h1 h2
    have hrange : List.range 2 = [0, 1] := rfl
    unfold decodeInt16 int16bytes leBytes
    rw [hrange]
    simp only [List.map_cons, List.map_nil, List.headD, List.tail, pow_zero, pow_one,
      Nat.div_one]
    split <;> omega

/-- Witness for C8_passthrough: the demo surface's single sentinel sample
appears after the header as the bytes 0x00 0x80, and −32768 round-trips. -/
theorem C8_witness :
    (encodeSurface allOkOra demoCtx demoMsg).drop 12 = [Chunk.raw [0, 128]]
    ∧ decodeInt16 (int16bytes (-32768)) = -32768 := by
  have h := C8_passthrough allOkOra demoCtx demoMsg (fun _ => rfl)
  refine ⟨?_, h.2 (-32768) (by decide) (by decide)⟩
  rw [h.1]
  rfl

/-- C9: the counter is incremented before the artifact is opened, so a
surface whose artifact open fails still consumes a sequence number and
leaves no file: the counter counts surfaces received, not artifacts
persisted. -/
theorem C9_count_before_open (ora : Nat → ArtifactOracle) (st : SessionState)
    (m : GoSurfaceMsg) (rest : List GoDataMsg)
    (hfail : (ora ((st.ctx.count + 1) % k32uMod)).openOk = false) :
    (onData ora st (GoDataMsg.surface m :: rest)).ctx.count = (st.ctx.count + 1) % k32uMod
    ∧ (onData ora st (GoDataMsg.surface m :: rest)).binFiles = st.binFiles := by
  simp [onData, hfail]

/-- A write failure never grows the artifact: the filtered chunks never
exceed the full write sequence. -/
theorem applyOracle_size_le (ok : Nat → Bool) :
    ∀ (cs : List Chunk) (i : Nat), chunksSize (applyOracle ok i cs) ≤ chunksSize cs := by
  intro cs
  induction cs with
  | nil => intro i; exact Nat.le_refl 0
  | cons c t ih =>
    intro i
    rw [chunksSize_cons]
    unfold applyOracle
    split
    · rw [chunksSize_cons]
      exact Nat.add_le_add_left (ih (i + 1)) _
    · exact Nat.le_trans (ih (i + 1)) (Nat.le_add_left _ _)

/-- Dropping a positively-sized chunk makes the artifact strictly shorter. -/
theorem applyOracle_size_lt (ok : Nat → Bool) :
    ∀ (cs : List Chunk) (i j : Nat) (hj : j < cs.length),
      ok (i + j) = false → 0 < Chunk.size (cs.get ⟨j, hj⟩) →
      chunksSize (applyOracle ok i cs) < chunksSize cs := by
  intro cs
  induction cs with
  | nil => intro i j hj; exact absurd hj (Nat.not_lt_zero j)
  | cons c t ih =>
    intro i j hj hok hpos
    cases j with
    | zero =>
      have hoki : ok i = false := by
        have : i + 0 = i := rfl
        rw [this] at hok
        exact hok
      have hc : 0 < Chunk.size c := hpos
      unfold applyOracle
      rw [hoki]
      simp only [Bool.false_eq_true, if_false, chunksSize_cons]
      have hle := applyOracle_size_le ok t (i + 1)
      omega
    | succ k =>
      have hk : k < t.length := Nat.lt_of_succ_lt_succ hj
      have hok' : ok (i + 1 + k) = false := by
        have heq : i + 1 + k = i + (k + 1) := by omega
        rw [heq]
        exact hok
      have hpos' : 0 < Chunk.size (t.get ⟨k, hk⟩) := hpos
      have hlt := ih (i + 1) k hk hok' hpos'
      unfold applyOracle
      split
      · rw [chunksSize_cons, chunksSize_cons]
        exact Nat.add_lt_add_left hlt _
      · rw [chunksSize_cons]
        omega

/-- Every write of a well-formed, positive-width surface emits at least one
byte (so skipping it is observable in the file size). -/
theorem encode_chunk_pos (ctx : DataContext) (m : GoSurfaceMsg) (hw : 0 < m.width)
    (hrow : ∀ r ∈ m.rows, r.length = m.width) :
    ∀ c ∈ headerChunks ctx m ++ rowChunksOf m, 0 < Chunk.size c := by
  intro c hc
  rcases List.mem_append.mp hc with h | h
  · simp only [headerChunks, List.mem_cons, List.not_mem_nil, or_false] at h
    rcases h with rfl | rfl | rfl | rfl | rfl | rfl | rfl | rfl | rfl | rfl | rfl | rfl <;>
      simp [Chunk.size, leBytes_length, headerTextBytes_length]
  · unfold rowChunksOf at h
    rcases List.mem_map.mp h with ⟨r, hr, rfl⟩
    show 0 < ((r.map int16bytes).flatten).length
    rw [rowBytes_length, hrow r hr]
    omega

/-- The length of the full write sequence is `12 + length` calls. -/
theorem encode_calls_length (ctx : DataContext) (m : GoSurfaceMsg)
    (hrows : m.rows.length = m.length) :
    (headerChunks ctx m ++ rowChunksOf m).length = 12 + m.length := by
  rw [List.length_append, headerChunks_length]
  unfold rowChunksOf
  rw [List.length_map, hrows]

/-- Whatever writes fail, the artifact never exceeds its full size. -/
theorem encode_size_le (ora : ArtifactOracle) (ctx : DataContext) (m : GoSurfaceMsg)
    (hrows : m.rows.length = m.length) (hrow : ∀ r ∈ m.rows, r.length = m.width) :
    chunksSize (encodeSurface ora ctx m) ≤ 96 + 2 * m.width * m.length := by
  calc chunksSize (encodeSurface ora ctx m)
      ≤ chunksSize (headerChunks ctx m ++ rowChunksOf m) :=
        applyOracle_size_le ora.writeOk _ 0
    _ = 96 + 2 * m.width * m.length := encode_total_size ctx m hrows hrow

/-- Any single failed write leaves the artifact strictly truncated. -/
theorem encode_size_lt_of_write_fail (ora : ArtifactOracle) (ctx : DataContext)
    (m : GoSurfaceMsg) (hw : 0 < m.width) (hrows : m.rows.length = m.length)
    (hrow : ∀ r ∈ m.rows, r.length = m.width) (j : Nat) (hj : j < 12 + m.length)
    (hfail : ora.writeOk j = false) :
    chunksSize (encodeSurface ora ctx m) < 96 + 2 * m.width * m.length := by
  have hj' : j < (headerChunks ctx m ++ rowChunksOf m).length := by
    rw [encode_calls_length ctx m hrows]
    exact hj
  have hpos : 0 < Chunk.size ((headerChunks ctx m ++ rowChunksOf m).get ⟨j, hj'⟩) :=
    encode_chunk_pos ctx m hw hrow _ (List.get_mem _ _ _)
  have hfail' : ora.writeOk (0 + j) = false := by
    rw [Nat.zero_add]
    exact hfail
  calc chunksSize (encodeSurface ora ctx m)
      < chunksSize (headerChunks ctx m ++ rowChunksOf m) :=
        applyOracle_size_lt ora.writeOk _ 0 j hj' hfail' hpos
    _ = 96 + 2 * m.width * m.length := encode_total_size ctx m hrows hrow

/-- C4 (amended): encoding is not atomic: the handler opens the destination
directly under its final name; on an open failure no file is created (the
rest of the batch is abandoned); once the open succeeds the file exists
under its final name whatever the write outcomes, never exceeds the full
`96 + 2*width*length` bytes, and any failed write leaves it strictly
truncated — yet closed and kept under its final name. -/
theorem C4_not_atomic (ora : Nat → ArtifactOracle) (st : SessionState) (m : GoSurfaceMsg)
    (hw : 0 < m.width) (hrows : m.rows.length = m.length)
    (hrow : ∀ r ∈ m.rows, r.length = m.width) :
    ((ora ((st.ctx.count + 1) % k32uMod)).openOk = false →
      (onData ora st [GoDataMsg.surface m]).binFiles = st.binFiles)
    ∧ ((ora ((st.ctx.count + 1) % k32uMod)).openOk = true →
      (onData ora st [GoDataMsg.surface m]).binFiles
        = st.binFiles ++
          [{ seq := (st.ctx.count + 1) % k32uMod,
             chunks := encodeSurface (ora ((st.ctx.count + 1) % k32uMod))
               { st.ctx with count := (st.ctx.count + 1) % k32uMod } m }])
    ∧ chunksSize (encodeSurface (ora ((st.ctx.count + 1) % k32uMod))
          { st.ctx with count := (st.ctx.count + 1) % k32uMod } m)
        ≤ 96 + 2 * m.width * m.length
    ∧ ∀ j, j < 12 + m.length →
        (ora ((st.ctx.count + 1) % k32uMod)).writeOk j = false →
        chunksSize (encodeSurface (ora ((st.ctx.count + 1) % k32uMod))
            { st.ctx with count := (st.ctx.count + 1) % k32uMod } m)
          < 96 + 2 * m.width * m.length := by
  refine ⟨fun h => by simp [onData, h], fun h => by simp [onData, h], ?_, ?_⟩
  · exact encode_size_le _ _ m hrows hrow
  · intro j hj hfail
    exact encode_size_lt_of_write_fail _ _ m hw hrows hrow j hj hfail

/-- C4 as stated is false: with the header writes succeeding and the row
write short, the demo surface's artifact is still created under its final
name, closed and kept, at 96 bytes instead of the full 98 — a partially
written file stays visible under its final name. -/
theorem C4_cex :
    (onData rowWriteFail (initState 0 0 0) [GoDataMsg.surface demoMsg]).binFiles.map
        (fun f => chunksSize f.chunks) = [96]
    ∧ (96 : Nat) ≠ 96 + 2 * demoMsg.width * demoMsg.length := by
  exact ⟨rfl, by decide⟩

/-- Witness for C4_not_atomic: the concrete row-write failure truncates the
demo artifact below its full size. -/
theorem C4_witness :
    chunksSize (encodeSurface (rowWriteFail ((0 + 1) % k32uMod))
        { count := (0 + 1) % k32uMod, timeStamp := 0, frameRate := 0, exposureTime := 0 }
        demoMsg)
      < 96 + 2 * demoMsg.width * demoMsg.length := by
  have h := C4_not_atomic rowWriteFail (initState 0 0 0) demoMsg (by decide) (by decide)
    (by decide)
  exact h.2.2.2 12 (by decide) rfl

/-- C2 (amended): a short write failure does not prevent processing of the
subsequent messages of the batch — with the artifact open succeeding, a
later measurement of the same batch is logged whatever the row-write
outcomes — and no failure aborts the session: after an open failure
abandons the rest of its own batch, the messages of the following batches
are still processed. -/
theorem C2_partial_failure (ora : Nat → ArtifactOracle) (g : Nat) (fr ex : Rat)
    (m : GoSurfaceMsg) (mid : Nat) (v : Rat)
    (hopen : (ora 1).openOk = true) :
    (runSession ora (initState g fr ex)
        [[GoDataMsg.surface m, GoDataMsg.measurement mid [v]]]).measLines
      = [measLine 1 mid v]
    ∧ ∀ ora2 : Nat → ArtifactOracle, (ora2 1).openOk = false →
        (runSession ora2 (initState g fr ex)
            [[GoDataMsg.surface m], [GoDataMsg.measurement mid [v]]]).measLines
          = [measLine 1 mid v] := by
  have h1 : (0 + 1) % k32uMod = 1 := by decide
  constructor
  · simp [runSession, onData, initState, h1, hopen]
  · intro ora2 hfail
    simp [runSession, onData, initState, h1, hfail]

/-- C2 as stated is false: when the artifact open fails, the measurement
after the failed surface in the same batch is never logged — the handler's
`return` abandons the rest of the batch — while the same batch with the
open succeeding logs it. -/
theorem C2_cex :
    (onData openFailAll (initState 0 0 0)
        [GoDataMsg.surface demoMsg, GoDataMsg.measurement 7 [1]]).measLines = []
    ∧ (onData allOk (initState 0 0 0)
        [GoDataMsg.surface demoMsg, GoDataMsg.measurement 7 [1]]).measLines
      = ["   1;   7; 1.00\r\n"] := by
  exact ⟨rfl, rfl⟩

/-- Witness for C2_partial_failure with concrete oracles. -/
theorem C2_witness :
    (runSession allOk (initState 0 0 0)
        [[GoDataMsg.surface demoMsg, GoDataMsg.measurement 7 [1]]]).measLines
      = [measLine 1 7 1]
    ∧ (runSession openFailAll (initState 0 0 0)
        [[GoDataMsg.surface demoMsg], [GoDataMsg.measurement 7 [1]]]).measLines
      = [measLine 1 7 1] := by
  have h := C2_partial_failure allOk 0 0 0 demoMsg 7 1 rfl
  exact ⟨h.1, h.2 openFailAll rfl⟩

/-- C5 (amended): dispatching one measurement message appends, per datum,
exactly the line `<scanCount %4.0u>;<id %4.0u>; <value %.2f>` + CRLF — with
no space after the first semicolon — and for scanCount 2, id 7, value
3.14159 that line reads three spaces, "2;", three spaces, "7; 3.14", CRLF. -/
theorem C5_log_format (ora : Nat → ArtifactOracle) (st : SessionState)
    (mid : Nat) (vs : List Rat) :
    (onData ora st [GoDataMsg.measurement mid vs]).measLines
      = st.measLines ++ vs.map (fun v =>
          fmtU4 st.ctx.count ++ ";" ++ fmtU4 mid ++ "; " ++ fmtF2 v ++ "\r\n")
    ∧ measLine 2 7 (mkRat 314159 100000) = "   2;   7; 3.14\r\n" := by
  constructor
  · simp [onData, measLine]
  · decide

/-- C5 as stated is false at its own example: the format string is
`%4.0u;%4.0u; %.2f` + CRLF — no space after the FIRST semicolon — so for
scanCount 2, id 7, value 3.14159 the produced line has three spaces between
the first semicolon and the id, not the four the claim expects. -/
theorem C5_cex :
    measLine 2 7 (mkRat 314159 100000) = "   2;   7; 3.14\r\n"
    ∧ measLine 2 7 (mkRat 314159 100000) ≠ "   2;    7; 3.14\r\n" := by
  exact ⟨by decide, by decide⟩

/-- Witness for C9_count_before_open at a concrete failing open. -/
theorem C9_witness :
    (onData openFailAll (initState 0 0 0) [GoDataMsg.surface demoMsg]).ctx.count
      = (0 + 1) % k32uMod
    ∧ (onData openFailAll (initState 0 0 0) [GoDataMsg.surface demoMsg]).binFiles
      = (initState 0 0 0).binFiles :=
  C9_count_before_open openFailAll (initState 0 0 0) demoMsg [] rfl

/-- C3's default is not what the code does: `main` initializes `count`,
`frameRate` and `exposureTime` (lines 146-151) but never `timeStamp`, so a
surface processed before any stamp message carries whatever indeterminate
stack value the context held — here modelled as 1 — in its header's
timestamp field, not the documented default 0. -/
theorem C3_uninitialized_timestamp :
    ((runSession allOk (initState 1 0 0) [[GoDataMsg.surface demoMsg]]).binFiles.map
        (fun f => f.chunks[1]?)) = [some (Chunk.raw (leBytes 8 1))]
    ∧ Chunk.raw (leBytes 8 1) ≠ Chunk.raw (leBytes 8 0) := by
  exact ⟨rfl, by decide⟩

/-- With every open succeeding, one dispatch call advances the counter by
the number of surface messages of the call, modulo 2^32, and by nothing for
any other message kind. -/
theorem onData_count_mod (ora : Nat → ArtifactOracle)
    (hopen : ∀ n, (ora n).openOk = true) :
    ∀ (msgs : List GoDataMsg) (st : SessionState), st.ctx.count < k32uMod →
      (onData ora st msgs).ctx.count
        = (st.ctx.count + msgs.countP isSurfaceMsg) % k32uMod := by
  intro msgs
  induction msgs with
  | nil =>
    intro st h
    simp [onData, Nat.mod_eq_of_lt h]
  | cons msg rest ih =>
    intro st h
    cases msg with
    | stamp ts =>
      have h' : ({ st with ctx := { st.ctx with
          timeStamp := ts.foldl (fun _ t => t) st.ctx.timeStamp } } : SessionState).ctx.count
          < k32uMod := h
      simp only [onData]
      rw [ih _ h']
      simp [List.countP_cons, isSurfaceMsg]
    | surface m =>
      simp only [onData, hopen, if_true]
      have hlt : ((st.ctx.count + 1) % k32uMod) < k32uMod := Nat.mod_lt _ (by decide)
      rw [ih _ hlt]
      rw [Nat.mod_add_mod]
      have heq : st.ctx.count + 1 + rest.countP isSurfaceMsg
          = st.ctx.count + (rest.countP isSurfaceMsg + 1) := by omega
      rw [heq]
      simp [List.countP_cons, isSurfaceMsg]
    | measurement mid vs =>
      have h' : ({ st with measLines := st.measLines ++ vs.map (fun v => measLine st.ctx.count mid v) } : SessionState).ctx.count < k32uMod := h
      simp only [onData]
      rw [ih _ h']
      simp [List.countP_cons, isSurfaceMsg]
    | other =>
      simp only [onData]
      rw [ih _ h]
      simp [List.countP_cons, isSurfaceMsg]

/-- Counter characterization over a whole session. -/
theorem runSession_count_mod (ora : Nat → ArtifactOracle)
    (hopen : ∀ n, (ora n).openOk = true) :
    ∀ (batches : List (List GoDataMsg)) (st : SessionState), st.ctx.count < k32uMod →
      (runSession ora st batches).ctx.count
        = (st.ctx.count + (batches.map fun b => b.countP isSurfaceMsg).sum) % k32uMod := by
  intro batches
  induction batches with
  | nil =>
    intro st h
    simp [runSession, Nat.mod_eq_of_lt h]
  | cons b bs ih =>
    intro st h
    have hstep := onData_count_mod ora hopen b st h
    have hlt : (onData ora st b).ctx.count < k32uMod := by
      rw [hstep]
      exact Nat.mod_lt _ (by decide)
    have hfold : runSession ora st (b :: bs) = runSession ora (onData ora st b) bs := rfl
    rw [hfold, ih _ hlt, hstep, Nat.mod_add_mod, List.map_cons, List.sum_cons,
      Nat.add_assoc]

/-- C6 (amended): the counter starts at zero when the session is armed and
is incremented by exactly one, modulo 2^32, per surface message processed —
and by nothing for any other message kind — across any number of batches;
being a `k32u` it wraps from 4294967295 to 0 at the 4294967296-th surface
and otherwise never decrements or resets during a session. -/
theorem C6_counter (ora : Nat → ArtifactOracle) (g : Nat) (fr ex : Rat)
    (hopen : ∀ n, (ora n).openOk = true) :
    (initState g fr ex).ctx.count = 0
    ∧ (∀ (msgs : List GoDataMsg) (st : SessionState), st.ctx.count < k32uMod →
        (onData ora st msgs).ctx.count
          = (st.ctx.count + msgs.countP isSurfaceMsg) % k32uMod)
    ∧ ∀ batches : List (List GoDataMsg),
        (runSession ora (initState g fr ex) batches).ctx.count
          = ((batches.map fun b => b.countP isSurfaceMsg).sum) % k32uMod := by
  refine ⟨rfl, onData_count_mod ora hopen, fun batches => ?_⟩
  have h := runSession_count_mod ora hopen batches (initState g fr ex)
    (show (0 : Nat) < k32uMod by decide)
  simpa [initState] using h

/-- Witness for C6_counter: two surfaces across two batches, interleaved
with a stamp, end the session with the counter at 2. -/
theorem C6_witness :
    (initState 0 0 0).ctx.count = 0
    ∧ (runSession allOk (initState 0 0 0)
        [[GoDataMsg.surface demoMsg, GoDataMsg.stamp [5]],
         [GoDataMsg.surface demoMsg]]).ctx.count = 2 % k32uMod := by
  have h := C6_counter allOk 0 0 0 (fun _ => rfl)
  refine ⟨h.1, ?_⟩
  rw [h.2.2 [[GoDataMsg.surface demoMsg, GoDataMsg.stamp [5]], [GoDataMsg.surface demoMsg]]]
  rfl

/-- Counting the surface messages of a surface-only replicated batch. -/
theorem countP_surface_replicate (n : Nat) (m : GoSurfaceMsg) :
    (List.replicate n (GoDataMsg.surface m)).countP isSurfaceMsg = n := by
  induction n with
  | zero => rfl
  | succ k ih => simp [List.replicate_succ, List.countP_cons, isSurfaceMsg, ih]

/-- C6 as stated is false in one corner: the counter is a `k32u`, so in a
session of 4294967296 surfaces it reaches 4294967295 at the second-to-last
surface and wraps back to 0 at the last one — a decrement/reset
mid-session. -/
theorem C6_cex :
    (onData allOk (initState 0 0 0)
        (List.replicate 4294967295 (GoDataMsg.surface demoMsg))).ctx.count = 4294967295
    ∧ (onData allOk (initState 0 0 0)
        (List.replicate 4294967296 (GoDataMsg.surface demoMsg))).ctx.count = 0 := by
  constructor
  · rw [onData_count_mod allOk (fun _ => rfl)
        (List.replicate 4294967295 (GoDataMsg.surface demoMsg)) (initState 0 0 0)
        (show (0 : Nat) < k32uMod by decide),
      countP_surface_replicate]
    decide
  · rw [onData_count_mod allOk (fun _ => rfl)
        (List.replicate 4294967296 (GoDataMsg.surface demoMsg)) (initState 0 0 0)
        (show (0 : Nat) < k32uMod by decide),
      countP_surface_replicate]
    decide

/-- C10 (amended): with every open and write succeeding, after one dispatch
call the context's last-seen timestamp equals the timestamp of the last
stamp record processed in the call (the prior value if there is none); a
stamp message alone produces no file and no log line; but an earlier stamp
IS attached to output when a surface message follows it before the next
stamp: the artifact of `[Stamp [t], Surface m]` carries `t` in its
timestamp field. -/
theorem C10_last_stamp (ora : Nat → ArtifactOracle)
    (hopen : ∀ n, (ora n).openOk = true)
    (hwrite : ∀ n i, (ora n).writeOk i = true) :
    (∀ (msgs : List GoDataMsg) (st : SessionState),
      (onData ora st msgs).ctx.timeStamp = lastStampD st.ctx.timeStamp msgs)
    ∧ (∀ (st : SessionState) (ts : List Nat),
        (onData ora st [GoDataMsg.stamp ts]).binFiles = st.binFiles
        ∧ (onData ora st [GoDataMsg.stamp ts]).measLines = st.measLines)
    ∧ ∀ (st : SessionState) (t : Nat) (m : GoSurfaceMsg),
        ((onData ora st [GoDataMsg.stamp [t], GoDataMsg.surface m]).binFiles).map
            (fun f => f.chunks[1]?)
          = st.binFiles.map (fun f => f.chunks[1]?)
            ++ [some (Chunk.raw (leBytes 8 t))] := by
  refine ⟨?_, ?_, ?_⟩
  · intro msgs
    induction msgs with
    | nil => intro st; rfl
    | cons msg rest ih =>
      intro st
      cases msg with
      | stamp ts =>
        simp only [onData]
        rw [ih]
        simp [lastStampD]
      | surface m =>
        simp only [onData, hopen, if_true]
        rw [ih]
        simp [lastStampD]
      | measurement mid vs =>
        simp only [onData]
        rw [ih]
        simp [lastStampD]
      | other =>
        simp only [onData]
        rw [ih]
        simp [lastStampD]
  · intro st ts
    exact ⟨rfl, rfl⟩
  · intro st t m
    simp only [onData, hopen, if_true, List.map_append]
    congr 1
    unfold encodeSurface
    rw [applyOracle_all_true _ (hwrite ((st.ctx.count + 1) % k32uMod))]
    rfl

/-- C10 as stated is false: in the single call
`[Stamp [5], Surface, Stamp [9]]` the final last-seen timestamp is 9, yet
the earlier stamp value 5 WAS attached to output — the artifact written
between the two stamps carries 5 in its timestamp field. -/
theorem C10_cex :
    (onData allOk (initState 0 0 0)
        [GoDataMsg.stamp [5], GoDataMsg.surface demoMsg,
         GoDataMsg.stamp [9]]).ctx.timeStamp = 9
    ∧ ((onData allOk (initState 0 0 0)
        [GoDataMsg.stamp [5], GoDataMsg.surface demoMsg,
         GoDataMsg.stamp [9]]).binFiles).map (fun f => f.chunks[1]?)
      = [some (Chunk.raw (leBytes 8 5))] := by
  exact ⟨rfl, rfl⟩

/-- Witness for C10_last_stamp at concrete stamps and the demo surface. -/
theorem C10_witness :
    (onData allOk (initState 0 0 0) [GoDataMsg.stamp [5]]).ctx.timeStamp
      = lastStampD (initState 0 0 0).ctx.timeStamp [GoDataMsg.stamp [5]]
    ∧ (onData allOk (initState 0 0 0) [GoDataMsg.stamp [5]]).binFiles
      = (initState 0 0 0).binFiles
    ∧ ((onData allOk (initState 0 0 0)
        [GoDataMsg.stamp [5], GoDataMsg.surface demoMsg]).binFiles).map
          (fun f => f.chunks[1]?)
      = (initState 0 0 0).binFiles.map (fun f => f.chunks[1]?)
        ++ [some (Chunk.raw (leBytes 8 5))] := by
  have h := C10_last_stamp allOk (fun _ => rfl) (fun _ _ => rfl)
  exact ⟨h.1 [GoDataMsg.stamp [5]] (initState 0 0 0),
    (h.2.1 (initState 0 0 0) [5]).1,
    h.2.2 (initState 0 0 0) 5 demoMsg⟩
